import Mathlib

/-!
# ContentWell — verification of the publish / connect / generation workflow

A shallow embedding of the ContentWell repository's publish dispatchers
(LinkedIn and X/Twitter), credential upsert, CSV import, OAuth localStorage
fallback, save-time image upload, content-generation driver and password
hashing, together with theorems settling the spec's claims about them.

JavaScript strings are modelled as `List Char`; machine integers
(millisecond timestamps) as `Int`.  External collaborators (the Supabase
database row, the provider HTTP endpoints, `crypto.subtle.digest`,
`JSON.parse`) appear as explicit parameters: an `Option Credential` for the
row the query would return, `Bool` outcome flags for each HTTP sub-step,
and function parameters for the digest / parse primitives.
-/

/-- JavaScript strings, modelled as lists of characters. -/
abbrev JSString := List Char

/-- Build a `JSString` from a Lean string literal. -/
def str (s : String) : JSString := s.data

/-- JavaScript truthiness of a nullable string: `null`/`undefined` and the
empty string are falsy, every other string is truthy. -/
def jsTruthy : Option JSString → Bool
  | none => false
  | some s => !s.isEmpty

/-- `new Date(x).getTime()` for a nullable millisecond timestamp:
`new Date(null)` is the epoch, i.e. `0`. -/
def jsDateMillis : Option Int → Int
  | none => 0
  | some t => t

/-- A row of the `social_credentials` table as read by the publish
endpoints (`src/api/linkedin/post.ts`, `src/server/linkedin-api.js`,
the `/api/twitter/post` express route). -/
structure Credential where
  access_token : JSString
  expires_at : Option Int
  account_id : Option JSString
  account_name : Option JSString
deriving DecidableEq, Repr

/-- Tags for the JSON error responses the publish endpoints produce. -/
inductive RespTag where
  | methodNotAllowed
  | missingFields
  | textTooLong
  | notConnected
  | tokenExpired
  | profileMissing
  | providerError
  | success
deriving DecidableEq, Repr

/-- `shareMediaCategory` of the LinkedIn UGC post payload. -/
inductive MediaCat where
  | IMAGE
  | NONE
deriving DecidableEq, Repr

/-- Outcomes of the external HTTP sub-steps of the LinkedIn image upload
(`registerUpload`, fetching the image bytes, uploading the bytes). -/
structure ImageStepEnv where
  registerOk : Bool
  imageFetchOk : Bool
  uploadOk : Bool
deriving DecidableEq, Repr

/-- Observable outcome of one LinkedIn publish request: HTTP status and
error tag of the response, which external calls were attempted, and the
payload actually sent to `POST /v2/ugcPosts` (media category, and for the
express variant the commentary text). -/
structure LinkedInOutcome where
  status : Nat
  tag : RespTag
  credentialLookup : Bool
  registerCall : Bool
  imageFetchCall : Bool
  uploadCall : Bool
  postCall : Bool
  shareMediaCategory : Option MediaCat
  postText : Option JSString
deriving DecidableEq, Repr

/-- The LinkedIn publish endpoint of `src/api/linkedin/post.ts`
(`handler`): method guard, required-field guard, 3000-character guard,
credential lookup, expiry check (`expiresAt < now`), profile-id check,
then the three-step image upload inside a `try`/`catch` whose handler
downgrades `shareMediaCategory` to `NONE`, and finally the `ugcPosts`
content-creation call.  `cred` is the row the Supabase query returns,
`img` the outcomes of the image sub-steps, `postOk`/`postStatus` the
outcome of the provider's content-creation call. -/
def linkedinPostHandler (method : JSString) (userId text imageUrl : Option JSString)
    (cred : Option Credential) (now : Int) (img : ImageStepEnv)
    (postOk : Bool) (postStatus : Nat) : LinkedInOutcome :=
  if method ≠ str "POST" then
    { status := 405, tag := .methodNotAllowed, credentialLookup := false,
      registerCall := false, imageFetchCall := false, uploadCall := false,
      postCall := false, shareMediaCategory := none, postText := none }
  else if ¬ (jsTruthy userId ∧ jsTruthy text) then
    { status := 400, tag := .missingFields, credentialLookup := false,
      registerCall := false, imageFetchCall := false, uploadCall := false,
      postCall := false, shareMediaCategory := none, postText := none }
  else
    let t := text.getD []
    if t.length > 3000 then
      { status := 400, tag := .textTooLong, credentialLookup := false,
        registerCall := false, imageFetchCall := false, uploadCall := false,
        postCall := false, shareMediaCategory := none, postText := none }
    else
      match cred with
      | none =>
        { status := 404, tag := .notConnected, credentialLookup := true,
          registerCall := false, imageFetchCall := false, uploadCall := false,
          postCall := false, shareMediaCategory := none, postText := none }
      | some c =>
        if jsDateMillis c.expires_at < now then
          { status := 401, tag := .tokenExpired, credentialLookup := true,
            registerCall := false, imageFetchCall := false, uploadCall := false,
            postCall := false, shareMediaCategory := none, postText := none }
        else if ¬ jsTruthy c.account_id then
          { status := 500, tag := .profileMissing, credentialLookup := true,
            registerCall := false, imageFetchCall := false, uploadCall := false,
            postCall := false, shareMediaCategory := none, postText := none }
        else
          let doImage := jsTruthy imageUrl
          let imageOk := doImage && img.registerOk && img.imageFetchOk && img.uploadOk
          let category := if imageOk then MediaCat.IMAGE else MediaCat.NONE
          { status := if postOk then 200 else postStatus,
            tag := if postOk then .success else .providerError,
            credentialLookup := true,
            registerCall := doImage,
            imageFetchCall := doImage && img.registerOk,
            uploadCall := doImage && img.registerOk && img.imageFetchOk,
            postCall := true,
            shareMediaCategory := some category,
            postText := some t }

/-- The LinkedIn publish route of `src/server/linkedin-api.js`
(`POST /api/linkedin/post`).  Same guards minus the method and profile-id
checks; on image failure the `catch` falls back to appending
`"\n\nImage: " + imageUrl` to the text and posting with `mediaAsset = null`
(category `NONE`). -/
def linkedinServerPostHandler (userId text imageUrl : Option JSString)
    (cred : Option Credential) (now : Int) (img : ImageStepEnv)
    (postOk : Bool) (postStatus : Nat) : LinkedInOutcome :=
  if ¬ (jsTruthy userId ∧ jsTruthy text) then
    { status := 400, tag := .missingFields, credentialLookup := false,
      registerCall := false, imageFetchCall := false, uploadCall := false,
      postCall := false, shareMediaCategory := none, postText := none }
  else
    let t := text.getD []
    if t.length > 3000 then
      { status := 400, tag := .textTooLong, credentialLookup := false,
        registerCall := false, imageFetchCall := false, uploadCall := false,
        postCall := false, shareMediaCategory := none, postText := none }
    else
      match cred with
      | none =>
        { status := 404, tag := .notConnected, credentialLookup := true,
          registerCall := false, imageFetchCall := false, uploadCall := false,
          postCall := false, shareMediaCategory := none, postText := none }
      | some c =>
        if jsDateMillis c.expires_at < now then
          { status := 401, tag := .tokenExpired, credentialLookup := true,
            registerCall := false, imageFetchCall := false, uploadCall := false,
            postCall := false, shareMediaCategory := none, postText := none }
        else
          let doImage := jsTruthy imageUrl
          let imageOk := doImage && img.registerOk && img.imageFetchOk && img.uploadOk
          let category := if imageOk then MediaCat.IMAGE else MediaCat.NONE
          let finalText :=
            if doImage && !(img.registerOk && img.imageFetchOk && img.uploadOk) then
              t ++ str "\n\nImage: " ++ imageUrl.getD []
            else t
          { status := if postOk then 200 else postStatus,
            tag := if postOk then .success else .providerError,
            credentialLookup := true,
            registerCall := doImage,
            imageFetchCall := doImage && img.registerOk,
            uploadCall := doImage && img.registerOk && img.imageFetchOk,
            postCall := true,
            shareMediaCategory := some category,
            postText := some finalText }

/-- `TWITTER_CHAR_LIMIT` from the Twitter publish endpoints. -/
def TWITTER_CHAR_LIMIT : Nat := 280

/-- `URL_LENGTH` from the Twitter publish endpoints: the fixed display
length Twitter's t.co shortener assigns to any link. -/
def URL_LENGTH : Nat := 23

/-- `availableChars = TWITTER_CHAR_LIMIT - URL_LENGTH - 1`. -/
def twitterAvailableChars : Nat := TWITTER_CHAR_LIMIT - URL_LENGTH - 1

/-- The truncation applied to the tweet text when an image URL is present:
`if (tweetText.length > availableChars) tweetText =
tweetText.substring(0, availableChars - 3) + '...'`. -/
def twitterTruncate (text : JSString) : JSString :=
  if text.length > twitterAvailableChars then
    text.take (twitterAvailableChars - 3) ++ str "..."
  else text

/-- Tweet preparation of the Twitter publish endpoints
(`src/api/linkedin/post.ts` Twitter handler, `src/unnamed/part_001`
`/api/twitter/post`): when a (truthy) image URL exists, truncate the text
to the available room and append a space and the full image URL. -/
def twitterPrepareTweet (text : JSString) (imageUrl : Option JSString) : JSString :=
  match imageUrl with
  | some url => if url.isEmpty then text else twitterTruncate text ++ ' ' :: url
  | none => text

/-- Observable outcome of one Twitter publish request. -/
structure TwitterOutcome where
  status : Nat
  tag : RespTag
  credentialLookup : Bool
  postCall : Bool
  tweetText : Option JSString
deriving DecidableEq, Repr

/-- The Twitter publish endpoint (second handler in
`src/api/linkedin/post.ts`, identical logic in `src/unnamed/part_001`):
method guard, required-field guard, Supabase configuration check,
credential lookup, tweet preparation and the `POST /2/tweets` call.
There is no expiry check: the handler posts with whatever
`access_token` is stored. -/
def twitterPostHandler (method : JSString) (userId text imageUrl : Option JSString)
    (configOk : Bool) (cred : Option Credential) (_now : Int)
    (postOk : Bool) (postStatus : Nat) : TwitterOutcome :=
  if method ≠ str "POST" then
    { status := 405, tag := .methodNotAllowed, credentialLookup := false,
      postCall := false, tweetText := none }
  else if ¬ (jsTruthy userId ∧ jsTruthy text) then
    { status := 400, tag := .missingFields, credentialLookup := false,
      postCall := false, tweetText := none }
  else if ¬ configOk then
    { status := 500, tag := .providerError, credentialLookup := false,
      postCall := false, tweetText := none }
  else
    match cred with
    | none =>
      { status := 404, tag := .notConnected, credentialLookup := true,
        postCall := false, tweetText := none }
    | some _ =>
      let tweet := twitterPrepareTweet (text.getD []) imageUrl
      { status := if postOk then 200 else postStatus,
        tag := if postOk then .success else .providerError,
        credentialLookup := true,
        postCall := true,
        tweetText := some tweet }

/-- The credential used in the token-expiry counterexample: its
`expires_at` lies strictly in the past at the time of the request. -/
def expiredXCred : Credential :=
  { access_token := str "stored-x-token", expires_at := some (-1000),
    account_id := some (str "x-acct"), account_name := some (str "X User") }

/-- C1 counterexample.  The Twitter publish dispatcher, given a stored
credential whose `expires_at` is in the past, still attempts the
provider's content-creation call and does not return a "token expired"
error — refuting the claim that every target platform's dispatcher
checks expiry before the provider call. -/
theorem twitter_no_expiry_check_counterexample :
    (twitterPostHandler (str "POST") (some (str "user-1")) (some (str "hello"))
        none true (some expiredXCred) 0 true 200).postCall = true
    ∧ (twitterPostHandler (str "POST") (some (str "user-1")) (some (str "hello"))
        none true (some expiredXCred) 0 true 200).tag ≠ RespTag.tokenExpired := by
  decide

/-- C1 (amended).  Both LinkedIn publish dispatchers return the 401
"token expired" error and attempt no provider call when the stored
credential's `expires_at` is in the past; the Twitter dispatcher performs
no expiry check at all and proceeds to the provider's content-creation
call with the stored token. -/
theorem tokenExpiry_dispatcher_behaviour (userId text imageUrl : Option JSString)
    (c : Credential) (now : Int) (img : ImageStepEnv) (postOk : Bool) (postStatus : Nat)
    (hu : jsTruthy userId = true) (ht : jsTruthy text = true)
    (hlen : ¬ ((text.getD []).length > 3000))
    (hexp : jsDateMillis c.expires_at < now) :
    (linkedinPostHandler (str "POST") userId text imageUrl (some c) now img postOk postStatus).tag
        = RespTag.tokenExpired
    ∧ (linkedinPostHandler (str "POST") userId text imageUrl (some c) now img postOk postStatus).status
        = 401
    ∧ (linkedinPostHandler (str "POST") userId text imageUrl (some c) now img postOk postStatus).postCall
        = false
    ∧ (linkedinPostHandler (str "POST") userId text imageUrl (some c) now img postOk postStatus).registerCall
        = false
    ∧ (linkedinServerPostHandler userId text imageUrl (some c) now img postOk postStatus).tag
        = RespTag.tokenExpired
    ∧ (linkedinServerPostHandler userId text imageUrl (some c) now img postOk postStatus).postCall
        = false
    ∧ (twitterPostHandler (str "POST") userId text imageUrl true (some c) now postOk postStatus).postCall
        = true
    ∧ (twitterPostHandler (str "POST") userId text imageUrl true (some c) now postOk postStatus).tag
        ≠ RespTag.tokenExpired := by
  simp [linkedinPostHandler, linkedinServerPostHandler, twitterPostHandler,
    hu, ht, hlen, hexp]
  rcases postOk with _ | _ <;> simp

/-- Closed witness for `tokenExpiry_dispatcher_behaviour`. -/
theorem tokenExpiry_dispatcher_behaviour_witness :
    jsTruthy (some (str "u")) = true ∧ jsTruthy (some (str "hi")) = true
    ∧ ¬ (((some (str "hi")).getD []).length > 3000)
    ∧ jsDateMillis expiredXCred.expires_at < 0
    ∧ (linkedinPostHandler (str "POST") (some (str "u")) (some (str "hi")) none
        (some expiredXCred) 0 ⟨true, true, true⟩ true 200).tag = RespTag.tokenExpired := by
  refine ⟨by decide, by decide, by decide, by decide, ?_⟩
  exact (tokenExpiry_dispatcher_behaviour (some (str "u")) (some (str "hi")) none
    expiredXCred 0 ⟨true, true, true⟩ true 200
    (by decide) (by decide) (by decide) (by decide)).1

/-- C5.  A LinkedIn publish request whose text body exceeds 3000
characters is rejected with an error response (4xx/405) before any
network call: no credential lookup, no image sub-step, and no provider
content-creation call, on both LinkedIn publish endpoints. -/
theorem linkedin_length_guard (method : JSString) (userId imageUrl : Option JSString)
    (cred : Option Credential) (now : Int) (img : ImageStepEnv)
    (postOk : Bool) (postStatus : Nat) (t : JSString) (hlen : t.length > 3000) :
    (400 ≤ (linkedinPostHandler method userId (some t) imageUrl cred now img postOk postStatus).status
      ∧ (linkedinPostHandler method userId (some t) imageUrl cred now img postOk postStatus).credentialLookup = false
      ∧ (linkedinPostHandler method userId (some t) imageUrl cred now img postOk postStatus).registerCall = false
      ∧ (linkedinPostHandler method userId (some t) imageUrl cred now img postOk postStatus).imageFetchCall = false
      ∧ (linkedinPostHandler method userId (some t) imageUrl cred now img postOk postStatus).uploadCall = false
      ∧ (linkedinPostHandler method userId (some t) imageUrl cred now img postOk postStatus).postCall = false)
    ∧ (400 ≤ (linkedinServerPostHandler userId (some t) imageUrl cred now img postOk postStatus).status
      ∧ (linkedinServerPostHandler userId (some t) imageUrl cred now img postOk postStatus).credentialLookup = false
      ∧ (linkedinServerPostHandler userId (some t) imageUrl cred now img postOk postStatus).registerCall = false
      ∧ (linkedinServerPostHandler userId (some t) imageUrl cred now img postOk postStatus).imageFetchCall = false
      ∧ (linkedinServerPostHandler userId (some t) imageUrl cred now img postOk postStatus).uploadCall = false
      ∧ (linkedinServerPostHandler userId (some t) imageUrl cred now img postOk postStatus).postCall = false) := by
  have htne : t ≠ [] := by
    intro h
    subst h
    simp at hlen
  simp only [linkedinPostHandler, linkedinServerPostHandler]
  split_ifs <;>
    simp_all [jsTruthy, List.isEmpty_iff]

/-- Closed witness for `linkedin_length_guard`. -/
theorem linkedin_length_guard_witness :
    (List.replicate 3001 'a').length > 3000
    ∧ (linkedinPostHandler (str "POST") (some (str "u")) (some (List.replicate 3001 'a'))
        none none 0 ⟨true, true, true⟩ true 200).credentialLookup = false := by
  have h : (List.replicate 3001 'a').length > 3000 := by
    rw [List.length_replicate]
    omega
  refine ⟨h, ?_⟩
  exact (linkedin_length_guard (str "POST") (some (str "u")) none none 0
    ⟨true, true, true⟩ true 200 (List.replicate 3001 'a') h).1.2.1

/-- C6.  On a LinkedIn publish request with an image URL, if any image
sub-step fails (register upload, fetch image bytes, or upload bytes),
both LinkedIn publish endpoints still perform the content-creation call:
`src/api/linkedin/post.ts` posts text-only (`shareMediaCategory = NONE`),
and `src/server/linkedin-api.js` posts text-only with the image URL
appended as a link. -/
theorem linkedin_image_fallback (userId text : Option JSString) (u : JSString)
    (c : Credential) (now : Int) (img : ImageStepEnv) (postOk : Bool) (postStatus : Nat)
    (hu : jsTruthy userId = true) (ht : jsTruthy text = true)
    (hlen : ¬ ((text.getD []).length > 3000))
    (hexp : ¬ (jsDateMillis c.expires_at < now))
    (hacct : jsTruthy c.account_id = true)
    (hurl : u ≠ [])
    (hfail : (img.registerOk && img.imageFetchOk && img.uploadOk) = false) :
    (linkedinPostHandler (str "POST") userId text (some u) (some c) now img postOk postStatus).postCall
        = true
    ∧ (linkedinPostHandler (str "POST") userId text (some u) (some c) now img postOk postStatus).shareMediaCategory
        = some MediaCat.NONE
    ∧ (linkedinServerPostHandler userId text (some u) (some c) now img postOk postStatus).postCall
        = true
    ∧ (linkedinServerPostHandler userId text (some u) (some c) now img postOk postStatus).shareMediaCategory
        = some MediaCat.NONE
    ∧ (linkedinServerPostHandler userId text (some u) (some c) now img postOk postStatus).postText
        = some (text.getD [] ++ str "\n\nImage: " ++ u) := by
  have hju : jsTruthy (some u) = true := by
    simp [jsTruthy, List.isEmpty_iff, hurl]
  have hfail' : ¬ ((img.registerOk = true ∧ img.imageFetchOk = true) ∧ img.uploadOk = true) := by
    simpa [Bool.and_eq_true] using hfail
  simp [linkedinPostHandler, linkedinServerPostHandler, hu, ht, hlen, hexp, hacct,
    hju, hfail, hfail', List.append_assoc]

/-- An unexpired LinkedIn credential used by the fallback witness. -/
def validLICred : Credential :=
  { access_token := str "tok", expires_at := some 1000,
    account_id := some (str "acct"), account_name := none }

/-- Closed witness for `linkedin_image_fallback`: register-upload fails,
yet the endpoint still posts text-only. -/
theorem linkedin_image_fallback_witness :
    jsTruthy (some (str "u")) = true ∧ jsTruthy (some (str "hi")) = true
    ∧ ¬ (((some (str "hi")).getD ([] : JSString)).length > 3000)
    ∧ ¬ (jsDateMillis validLICred.expires_at < 0)
    ∧ (linkedinPostHandler (str "POST") (some (str "u")) (some (str "hi"))
        (some (str "http://img")) (some validLICred) 0
        ⟨false, true, true⟩ true 200).shareMediaCategory = some MediaCat.NONE := by
  refine ⟨by decide, by decide, by decide, by decide, ?_⟩
  exact (linkedin_image_fallback (some (str "u")) (some (str "hi")) (str "http://img")
    validLICred 0 ⟨false, true, true⟩ true 200
    (by decide) (by decide) (by decide) (by decide) (by decide) (by decide) (by decide)).2.1

set_option maxRecDepth 8000

/-- C3 counterexample.  With a 24-character image URL and a 257-character
text, the truncated text has length 256, so
`truncated_text.length + 1 + imageUrl.length = 281 > 280`, and the final
tweet string itself is 281 characters long — refuting the claimed bound,
which only holds for the fixed t.co length of 23. -/
theorem twitter_truncation_counterexample :
    ¬ ((twitterTruncate (List.replicate 257 'a')).length + 1
        + (List.replicate 24 'b').length ≤ TWITTER_CHAR_LIMIT)
    ∧ (twitterPrepareTweet (List.replicate 257 'a')
        (some (List.replicate 24 'b'))).length = 281 := by
  decide

/-- C3 (amended).  When an image URL is present and the text exceeds the
available room, the text part of the tweet is truncated to exactly
`280 - 23 - 1 = 256` characters, so
`truncated_text.length + 1 + URL_LENGTH ≤ 280` with Twitter's fixed t.co
link length `URL_LENGTH = 23`; the full image URL string is then appended
after a space. -/
theorem twitter_truncation_amended (text u : JSString)
    (hu : u ≠ []) (hlong : text.length > twitterAvailableChars) :
    twitterPrepareTweet text (some u) = twitterTruncate text ++ ' ' :: u
    ∧ (twitterTruncate text).length = twitterAvailableChars
    ∧ (twitterTruncate text).length + 1 + URL_LENGTH ≤ TWITTER_CHAR_LIMIT := by
  have hlen : (twitterTruncate text).length = twitterAvailableChars := by
    simp only [twitterTruncate, if_pos hlong, List.length_append, List.length_take, str]
    simp only [twitterAvailableChars, TWITTER_CHAR_LIMIT, URL_LENGTH] at hlong ⊢
    simp
    omega
  refine ⟨?_, hlen, ?_⟩
  · simp [twitterPrepareTweet, List.isEmpty_iff, hu]
  · rw [hlen]
    decide

/-- Closed witness for `twitter_truncation_amended`. -/
theorem twitter_truncation_amended_witness :
    (List.replicate 257 'a').length > twitterAvailableChars
    ∧ (twitterTruncate (List.replicate 257 'a')).length = twitterAvailableChars := by
  have h : (List.replicate 257 'a').length > twitterAvailableChars := by decide
  exact ⟨h, (twitter_truncation_amended (List.replicate 257 'a') [' ']
    (by decide) h).2.1⟩

/-- The columns supplied to the `social_credentials` upsert by the
connect flows (`handleAuthCallback` / `handleTwitterCallback` in
`src/components/SocialConnections.tsx` and the LinkedIn callback in
`src/server/linkedin-api.js`). -/
structure CredRow where
  user_id : JSString
  platform : JSString
  access_token : JSString
  refresh_token : Option JSString
  token_type : JSString
  expires_at : Option Int
  scopes : List JSString
  account_id : Option JSString
  account_name : Option JSString
  updated_at : Int
deriving DecidableEq, Repr

/-- Whether two rows collide on the `UNIQUE (user_id, platform)`
constraint of `social_credentials`. -/
def sameKey (a b : CredRow) : Bool :=
  decide (a.user_id = b.user_id ∧ a.platform = b.platform)

theorem sameKey_refl (a : CredRow) : sameKey a a = true := by
  simp [sameKey]

theorem sameKey_trans {a b c : CredRow} (h1 : sameKey a b = true)
    (h2 : sameKey b c = true) : sameKey a c = true := by
  simp only [sameKey, decide_eq_true_eq] at h1 h2 ⊢
  exact ⟨h1.1.trans h2.1, h1.2.trans h2.2⟩

theorem sameKey_symm {a b : CredRow} (h : sameKey a b = true) : sameKey b a = true := by
  simp only [sameKey, decide_eq_true_eq] at h ⊢
  exact ⟨h.1.symm, h.2.symm⟩

/-- The database upsert invoked with `onConflict: 'user_id,platform'`:
Postgres `INSERT ... ON CONFLICT (user_id, platform) DO UPDATE`, under
the `UNIQUE (user_id, platform)` constraint the repository's SQL setup
(`src/unnamed/part_006`) installs — if a row with the key exists it is
overwritten in place, otherwise the row is appended. -/
def upsertCredential (table : List CredRow) (row : CredRow) : List CredRow :=
  if table.any (fun r => sameKey r row) then
    table.map (fun r => if sameKey r row then row else r)
  else table ++ [row]

/-- The `UNIQUE (user_id, platform)` table invariant: no two rows share
a (user, platform) key. -/
def noDupKeys (table : List CredRow) : Prop :=
  table.Pairwise (fun a b => sameKey a b = false)

theorem noDupKeys_upsert (t : List CredRow) (r : CredRow) (h : noDupKeys t) :
    noDupKeys (upsertCredential t r) := by
  by_cases hany : t.any (fun x => sameKey x r) = true
  · rw [upsertCredential, if_pos hany]
    refine List.Pairwise.map _ (fun a b hab => ?_) h
    by_cases ha : sameKey a r = true <;> by_cases hb : sameKey b r = true
    · exact absurd (sameKey_trans ha (sameKey_symm hb)) (by simp [hab])
    · simp only [if_pos ha, if_neg hb]
      by_contra hc
      have hrb : sameKey r b = true := by
        simpa using hc
      exact absurd (sameKey_trans ha hrb) (by simp [hab])
    · simp only [if_neg ha, if_pos hb]
      simpa using ha
    · simpa [if_neg ha, if_neg hb] using hab
  · rw [upsertCredential, if_neg hany]
    simp only [List.any_eq_true, not_exists, not_and] at hany
    rw [noDupKeys, List.pairwise_append]
    refine ⟨h, by simp, fun a hat b hbr => ?_⟩
    cases List.mem_singleton.mp hbr
    simpa using fun hc => hany a hat hc

theorem map_no_key_match (t : List CredRow) (r : CredRow)
    (h : ∀ x ∈ t, sameKey x r = false) :
    t.map (fun x => if sameKey x r then r else x) = t := by
  induction t with
  | nil => rfl
  | cons a t ih =>
    have ha := h a (by simp)
    rw [List.map_cons, if_neg (by simp [ha]), ih (fun x hx => h x (by simp [hx]))]

theorem filter_no_key_match (t : List CredRow) (r : CredRow)
    (h : ∀ x ∈ t, sameKey x r = false) :
    t.filter (fun x => sameKey x r) = [] := by
  rw [List.filter_eq_nil_iff]
  intro a ha
  simp [h a ha]

theorem filter_upsert (t : List CredRow) (r : CredRow) (h : noDupKeys t) :
    (upsertCredential t r).filter (fun x => sameKey x r) = [r] := by
  induction t with
  | nil => simp [upsertCredential, sameKey_refl]
  | cons a t ih =>
    rw [noDupKeys, List.pairwise_cons] at h
    obtain ⟨ha, ht⟩ := h
    by_cases har : sameKey a r = true
    · have hnone : ∀ x ∈ t, sameKey x r = false := by
        intro x hx
        by_contra hc
        have hxr : sameKey x r = true := by
          simpa using hc
        have : sameKey a x = true := sameKey_trans har (sameKey_symm hxr)
        simp [ha x hx] at this
      have hanytrue : (a :: t).any (fun x => sameKey x r) = true := by
        simp [har]
      rw [upsertCredential, if_pos hanytrue]
      simp only [List.map_cons, if_pos har]
      rw [map_no_key_match t r hnone]
      rw [List.filter_cons_of_pos (by simp [sameKey_refl])]
      rw [filter_no_key_match t r hnone]
    · have hshape : upsertCredential (a :: t) r = a :: upsertCredential t r := by
        rw [upsertCredential, upsertCredential]
        by_cases hany : t.any (fun x => sameKey x r) = true
        · rw [if_pos (by simp [hany]), if_pos hany]
          simp [if_neg har]
        · rw [if_neg (by simp [har, hany]), if_neg hany]
          simp
      rw [hshape, List.filter_cons_of_neg (by simp [har])]
      exact ih ht

/-- C2.  Upserting a credential twice for the same (user_id, platform)
key leaves exactly one row with that key, and that row is the second
write; moreover every single upsert — i.e. every connect flow —
preserves the "at most one row per (user, platform)" invariant. -/
theorem credential_upsert_spec (t : List CredRow) (r1 r2 : CredRow)
    (hk : sameKey r1 r2 = true) (hwf : noDupKeys t) :
    (upsertCredential (upsertCredential t r1) r2).filter (fun x => sameKey x r2) = [r2]
    ∧ ((upsertCredential (upsertCredential t r1) r2).filter (fun x => sameKey x r2)).length = 1
    ∧ noDupKeys (upsertCredential (upsertCredential t r1) r2)
    ∧ ∀ r, noDupKeys (upsertCredential t r) := by
  have h1 : noDupKeys (upsertCredential t r1) := noDupKeys_upsert t r1 hwf
  have hf : (upsertCredential (upsertCredential t r1) r2).filter (fun x => sameKey x r2) = [r2] :=
    filter_upsert (upsertCredential t r1) r2 h1
  exact ⟨hf, by rw [hf]; rfl, noDupKeys_upsert _ r2 h1, fun r => noDupKeys_upsert t r hwf⟩

/-- First write of the upsert witness. -/
def exCredRow1 : CredRow :=
  { user_id := str "u1", platform := str "linkedin", access_token := str "tok-1",
    refresh_token := none, token_type := str "bearer", expires_at := some 100,
    scopes := [str "w_member_social"], account_id := some (str "li-1"),
    account_name := some (str "A"), updated_at := 1 }

/-- Second write of the upsert witness: same (user, platform) key,
different token. -/
def exCredRow2 : CredRow :=
  { user_id := str "u1", platform := str "linkedin", access_token := str "tok-2",
    refresh_token := none, token_type := str "bearer", expires_at := some 200,
    scopes := [str "w_member_social"], account_id := some (str "li-1"),
    account_name := some (str "A"), updated_at := 2 }

/-- Closed witness for `credential_upsert_spec`. -/
theorem credential_upsert_spec_witness :
    sameKey exCredRow1 exCredRow2 = true ∧ noDupKeys []
    ∧ (upsertCredential (upsertCredential [] exCredRow1) exCredRow2).filter
        (fun x => sameKey x exCredRow2) = [exCredRow2] := by
  refine ⟨by decide, List.Pairwise.nil, ?_⟩
  exact (credential_upsert_spec [] exCredRow1 exCredRow2 (by decide) List.Pairwise.nil).1

/-- The localStorage keys read and cleared by the OAuth fallback channel
(`checkLocalStorageAuth` in `src/components/SocialConnections.tsx`).
`oauth_timestamp` is the value `parseInt` yields for the stored
timestamp string; a missing key parses as the default `'0'`. -/
structure OAuthStorage where
  oauth_success : Option JSString
  oauth_session : Option JSString
  oauth_timestamp : Option Int
deriving DecidableEq, Repr

/-- `checkLocalStorageAuth`: when `oauth_success === 'true'` and a
(truthy) `oauth_session` is present, the session is JSON-parsed and
handed to the credential-save routine only if
`now - timestamp < 30000`; the three flags are then removed in either
case.  Returns the session passed to `handleAuthCallback` (if any) and
the storage after the call. -/
def checkLocalStorageAuth {Session : Type} (store : OAuthStorage) (now : Int)
    (jsonParse : JSString → Option Session) : Option Session × OAuthStorage :=
  match store.oauth_success, store.oauth_session with
  | some success, some sess =>
    if success = str "true" ∧ ¬ sess.isEmpty then
      let timestamp := store.oauth_timestamp.getD 0
      let processed := if now - timestamp < 30000 then jsonParse sess else none
      (processed,
        { oauth_success := none, oauth_session := none, oauth_timestamp := none })
    else (none, store)
  | _, _ => (none, store)

/-- C9.  A localStorage OAuth result is handed to the credential-save
routine only while its timestamp is less than 30 seconds old; an entry
at or past the 30-second window is discarded without being processed;
and in either case all three localStorage flags are cleared. -/
theorem checkLocalStorageAuth_freshness {Session : Type} (store : OAuthStorage)
    (now : Int) (jsonParse : JSString → Option Session) (sess : JSString)
    (hsucc : store.oauth_success = some (str "true"))
    (hsess : store.oauth_session = some sess) (hne : ¬ sess.isEmpty) :
    ((30000 ≤ now - store.oauth_timestamp.getD 0) →
        (checkLocalStorageAuth store now jsonParse).1 = none)
    ∧ ((checkLocalStorageAuth store now jsonParse).1 ≠ none →
        now - store.oauth_timestamp.getD 0 < 30000)
    ∧ (checkLocalStorageAuth store now jsonParse).2.oauth_success = none
    ∧ (checkLocalStorageAuth store now jsonParse).2.oauth_session = none
    ∧ (checkLocalStorageAuth store now jsonParse).2.oauth_timestamp = none := by
  rcases store with ⟨osucc, osess, ots⟩
  cases hsucc
  cases hsess
  have hred : checkLocalStorageAuth ⟨some (str "true"), some sess, ots⟩ now jsonParse
      = ((if now - ots.getD 0 < 30000 then jsonParse sess else none),
         ⟨none, none, none⟩) := by
    simp [checkLocalStorageAuth, hne]
  refine ⟨fun hstale => ?_, fun hproc => ?_, by rw [hred], by rw [hred], by rw [hred]⟩
  · dsimp only at hstale
    rw [hred]
    simp only
    rw [if_neg (by omega : ¬ (now - ots.getD 0 < 30000))]
  · rw [hred] at hproc
    simp only at hproc
    by_contra hge
    dsimp only at hge
    rw [if_neg (by omega : ¬ (now - ots.getD 0 < 30000))] at hproc
    exact hproc rfl

/-- The concrete localStorage state used by the freshness witness: an
entry whose timestamp is exactly 30 seconds old at the check. -/
def exStaleStore : OAuthStorage :=
  { oauth_success := some (str "true"), oauth_session := some (str "s"),
    oauth_timestamp := some 0 }

/-- Closed witness for `checkLocalStorageAuth_freshness`: a 30-second-old
entry is discarded. -/
theorem checkLocalStorageAuth_freshness_witness :
    exStaleStore.oauth_success = some (str "true")
    ∧ (checkLocalStorageAuth exStaleStore 30000 (fun s => some s)).1 = none := by
  refine ⟨rfl, ?_⟩
  exact (checkLocalStorageAuth_freshness exStaleStore 30000 (fun s => some s) (str "s")
    rfl rfl (by decide)).1 (by decide)

/-- The metadata of a generated content item as manipulated at save time
(`approveAndSaveAll` in `src/unnamed/part_004`, `handleSaveChanges` in
`src/components/ResultsEdit.tsx`). -/
structure ItemMetadata where
  image_prompt : Option JSString
  generated_image_url : Option JSString
  temp_base64_image : Option JSString
deriving DecidableEq, Repr

/-- An in-memory generated item held for review before saving. -/
structure ReviewItem where
  itemType : JSString
  subtype : Option JSString
  platform : Option JSString
  generated_text : JSString
  metadata : ItemMetadata
deriving DecidableEq, Repr

/-- A row of `generated_content` as built by `approveAndSaveAll` for the
batch insert. -/
structure SavedItem where
  content_type : JSString
  subtype : Option JSString
  generated_text : JSString
  metadata : ItemMetadata
  generated_image_path : Option JSString
deriving DecidableEq, Repr

/-- One iteration of the `approveAndSaveAll` loop: when the item carries
`metadata.temp_base64_image`, upload it (`uploadBase64Image`), set
`metadata.generated_image_url` to the returned public URL and delete the
temporary field, then push the row for the batch insert.  `upload`
models `uploadBase64Image base64 path ↦ publicUrl` and `pathFor i` the
`campaign_‹id›/item_‹i›_‹Date.now()›.png` upload path for index `i`. -/
def processSaveItem (upload : JSString → JSString → JSString)
    (pathFor : Nat → JSString) (i : Nat) (item : ReviewItem) : SavedItem :=
  match item.metadata.temp_base64_image with
  | some b64 =>
    let uploadPath := pathFor i
    let publicUrl := upload b64 uploadPath
    { content_type := item.itemType, subtype := item.subtype,
      generated_text := item.generated_text,
      metadata := { item.metadata with
        generated_image_url := some publicUrl, temp_base64_image := none },
      generated_image_path := some uploadPath }
  | none =>
    { content_type := item.itemType, subtype := item.subtype,
      generated_text := item.generated_text,
      metadata := item.metadata,
      generated_image_path := none }

/-- `approveAndSaveAll` (`src/unnamed/part_004`): process every reviewed
item in order and return the rows handed to the single
`generated_content` batch insert. -/
def approveAndSaveAll (upload : JSString → JSString → JSString)
    (pathFor : Nat → JSString) (items : List ReviewItem) : List SavedItem :=
  items.enum.map fun p => processSaveItem upload pathFor p.1 p.2

/-- C7.  An item that carries `metadata.temp_base64_image` at save time
is persisted with `metadata.generated_image_url` set to the public URL
returned by the upload, with the `temp_base64_image` field removed, and
with `generated_image_path` recording the upload path. -/
theorem approveAndSaveAll_base64_roundtrip
    (upload : JSString → JSString → JSString) (pathFor : Nat → JSString)
    (items : List ReviewItem) (i : Nat) (item : ReviewItem) (b64 : JSString)
    (hi : items[i]? = some item)
    (hb : item.metadata.temp_base64_image = some b64) :
    ∃ f, (approveAndSaveAll upload pathFor items)[i]? = some f
      ∧ f.metadata.temp_base64_image = none
      ∧ f.metadata.generated_image_url = some (upload b64 (pathFor i))
      ∧ f.generated_image_path = some (pathFor i) := by
  refine ⟨processSaveItem upload pathFor i item, ?_, ?_, ?_, ?_⟩
  · rw [approveAndSaveAll, List.getElem?_map, List.getElem?_enum, hi]
    rfl
  · rw [processSaveItem, hb]
  · rw [processSaveItem, hb]
  · rw [processSaveItem, hb]

/-- The review item used by the round-trip witness. -/
def exReviewItem : ReviewItem :=
  { itemType := str "social", subtype := some (str "post"),
    platform := some (str "linkedin"), generated_text := str "hello",
    metadata := { image_prompt := some (str "a cat"),
                  generated_image_url := some (str "data:image/png;base64,QUJD"),
                  temp_base64_image := some (str "data:image/png;base64,QUJD") } }

/-- Closed witness for `approveAndSaveAll_base64_roundtrip`. -/
theorem approveAndSaveAll_base64_roundtrip_witness :
    [exReviewItem][0]? = some exReviewItem
    ∧ ∃ f, (approveAndSaveAll (fun _ p => str "https://cdn/" ++ p)
        (fun i => str "campaign_1/item_" ++ str (toString i)) [exReviewItem])[0]? = some f
      ∧ f.metadata.temp_base64_image = none
      ∧ f.metadata.generated_image_url
          = some ((fun (_ p : JSString) => str "https://cdn/" ++ p)
              (str "data:image/png;base64,QUJD")
              ((fun i => str "campaign_1/item_" ++ str (toString i)) 0))
      ∧ f.generated_image_path
          = some ((fun i => str "campaign_1/item_" ++ str (toString i)) 0) := by
  refine ⟨rfl, ?_⟩
  exact approveAndSaveAll_base64_roundtrip (fun _ p => str "https://cdn/" ++ p)
    (fun i => str "campaign_1/item_" ++ str (toString i)) [exReviewItem] 0 exReviewItem
    (str "data:image/png;base64,QUJD") rfl rfl

/-- JavaScript `trim`: strip whitespace from both ends. -/
def trimChars (l : JSString) : JSString :=
  ((l.dropWhile Char.isWhitespace).reverse.dropWhile Char.isWhitespace).reverse

/-- Case-insensitive-capable prefix test used by the global `replace`
model: does `pat` match at the head of `l`? -/
def matchesAt (caseInsensitive : Bool) (pat l : JSString) : Bool :=
  if caseInsensitive then
    decide ((l.take pat.length).map Char.toLower = pat.map Char.toLower)
  else
    decide (l.take pat.length = pat)

/-- JavaScript `String.replace(/pat/g, '')` for a fixed non-empty literal
pattern: scan left to right, deleting non-overlapping occurrences. -/
def removeAllSub (caseInsensitive : Bool) (pat : JSString) : JSString → JSString
  | [] => []
  | c :: rest =>
    if matchesAt caseInsensitive pat (c :: rest) && !pat.isEmpty then
      removeAllSub caseInsensitive pat (rest.drop (pat.length - 1))
    else
      c :: removeAllSub caseInsensitive pat rest
termination_by l => l.length
decreasing_by
  · simp only [List.length_drop, List.length_cons]
    omega
  · simp

/-- The response cleaning in `generateAllGeminiContent`
(`src/unnamed/part_007`): strip Markdown code fences
(`.replace(/```json/gi, '').replace(/```/g, '').trim()`). -/
def cleanGeminiText (raw : JSString) : JSString :=
  trimChars (removeAllSub false (str "```") (removeAllSub true (str "```json") raw))

/-- `generateAllGeminiContent` (`src/unnamed/part_007`), around its
external collaborators: `ai n` is the text of the model response to the
`n`-th call of the session (`response.text || ""`), and `jsonParse`
models `JSON.parse` (`none` = throws).  The driver makes exactly one
`generateContent` call, cleans the text, and parses it; a parse failure
propagates as a thrown exception (`Except.error`) with no content items
produced. -/
def generateAllGeminiContent {J : Type} (ai : Nat → JSString)
    (jsonParse : JSString → Option J) (callsBefore : Nat) : Nat × Except Unit J :=
  let rawText := ai callsBefore
  let cleaned := cleanGeminiText rawText
  (callsBefore + 1,
    match jsonParse cleaned with
    | some parsed => Except.ok parsed
    | none => Except.error ())

/-- C8.  One generation request performs exactly one AI call (the call
counter advances by one, with no retry), and when the cleaned response
text does not JSON-parse the whole call throws, producing no items. -/
theorem generateAllGeminiContent_once_and_throws {J : Type} (ai : Nat → JSString)
    (jsonParse : JSString → Option J) (callsBefore : Nat)
    (hfail : jsonParse (cleanGeminiText (ai callsBefore)) = none) :
    (generateAllGeminiContent ai jsonParse callsBefore).1 = callsBefore + 1
    ∧ (generateAllGeminiContent ai jsonParse callsBefore).2 = Except.error () := by
  rw [generateAllGeminiContent]
  exact ⟨rfl, by simp [hfail]⟩

/-- Closed witness for `generateAllGeminiContent_once_and_throws`. -/
theorem generateAllGeminiContent_once_and_throws_witness :
    ((fun _ : JSString => (none : Option Unit)) (cleanGeminiText ((fun _ => str "not json") 0)) = none)
    ∧ (generateAllGeminiContent (fun _ => str "not json")
        (fun _ : JSString => (none : Option Unit)) 0).2 = Except.error () := by
  refine ⟨rfl, ?_⟩
  exact (generateAllGeminiContent_once_and_throws (fun _ => str "not json")
    (fun _ : JSString => (none : Option Unit)) 0 rfl).2

/-- One hex digit as produced by JavaScript `Number.toString(16)`
(lowercase). -/
def hexDigitChar (n : Nat) : Char :=
  if n < 10 then Char.ofNat (48 + n) else Char.ofNat (87 + n)

/-- `b.toString(16).padStart(2, '0')` for one byte. -/
def byteToHex (b : Fin 256) : JSString :=
  [hexDigitChar (b.val / 16), hexDigitChar (b.val % 16)]

/-- `Array.from(bytes).map(b => b.toString(16).padStart(2, '0')).join('')`. -/
def bytesToHex (l : List (Fin 256)) : JSString :=
  (l.map byteToHex).flatten

/-- JavaScript `String.split(sep)` for a single-character separator. -/
def splitOnChar (sep : Char) : JSString → List JSString
  | [] => [[]]
  | c :: rest =>
    let r := splitOnChar sep rest
    if c = sep then [] :: r
    else
      match r with
      | [] => [[c]]
      | h :: t => (c :: h) :: t

/-- `hashPassword` (`src/services/authService.ts`): SHA-256 the encoded
password, hex-encode, append a hex-encoded random salt, SHA-256 again,
and store `"salt:hash"`.  `digest` models `crypto.subtle.digest('SHA-256', ·)`
and `encode` the `TextEncoder`; `salt` is the random 16-byte salt. -/
def hashPassword (digest : List (Fin 256) → List (Fin 256))
    (encode : JSString → List (Fin 256)) (password : JSString)
    (salt : List (Fin 256)) : JSString :=
  let hashHex := bytesToHex (digest (encode password))
  let saltHex := bytesToHex salt
  let finalHashHex := bytesToHex (digest (encode (hashHex ++ saltHex)))
  saltHex ++ ':' :: finalHashHex

/-- `verifyPassword` (`src/services/authService.ts`): split the stored
hash at `':'`, fail if either part is missing or empty, else recompute
the salted double hash of the candidate password and compare. -/
def verifyPassword (digest : List (Fin 256) → List (Fin 256))
    (encode : JSString → List (Fin 256)) (password storedHash : JSString) : Bool :=
  let parts := splitOnChar ':' storedHash
  let saltHex := parts.getD 0 []
  let storedHashHex := parts.getD 1 []
  if saltHex.isEmpty || storedHashHex.isEmpty then false
  else
    let hashHex := bytesToHex (digest (encode password))
    let finalHashHex := bytesToHex (digest (encode (hashHex ++ saltHex)))
    decide (finalHashHex = storedHashHex)

theorem colon_not_mem_byteToHex (b : Fin 256) : ':' ∉ byteToHex b := by
  revert b
  decide

theorem colon_not_mem_bytesToHex (l : List (Fin 256)) : ':' ∉ bytesToHex l := by
  induction l with
  | nil => simp [bytesToHex]
  | cons b l ih =>
    simp only [bytesToHex, List.map_cons, List.flatten_cons, List.mem_append]
    rintro (h | h)
    · exact colon_not_mem_byteToHex b h
    · exact ih (by simpa [bytesToHex] using h)

theorem bytesToHex_ne_nil {l : List (Fin 256)} (h : l ≠ []) : bytesToHex l ≠ [] := by
  rcases l with _ | ⟨b, l⟩
  · exact absurd rfl h
  · simp [bytesToHex, byteToHex]

theorem splitOnChar_ne_nil (sep : Char) (l : JSString) : splitOnChar sep l ≠ [] := by
  cases l with
  | nil => simp [splitOnChar]
  | cons c rest =>
    rw [splitOnChar]
    split
    · simp
    · split <;> simp

theorem splitOnChar_of_not_mem {sep : Char} {l : JSString} (h : sep ∉ l) :
    splitOnChar sep l = [l] := by
  induction l with
  | nil => rfl
  | cons c rest ih =>
    have hc : ¬ c = sep := fun hc => h (hc ▸ List.mem_cons_self c rest)
    rw [splitOnChar]
    simp only [if_neg hc, ih (fun hm => h (List.mem_cons_of_mem c hm))]

theorem splitOnChar_append {sep : Char} {a : JSString} (b : JSString) (ha : sep ∉ a) :
    splitOnChar sep (a ++ sep :: b) = a :: splitOnChar sep b := by
  induction a with
  | nil => simp [splitOnChar]
  | cons c a ih =>
    have hc : ¬ c = sep := fun hc => ha (hc ▸ List.mem_cons_self c a)
    have iha := ih (fun hm => ha (List.mem_cons_of_mem c hm))
    rw [List.cons_append, splitOnChar]
    simp only [if_neg hc, iha]

/-- Re-joining the pieces of `splitOnChar` with the separator recovers
the original string. -/
def joinWithChar (sep : Char) : List JSString → JSString
  | [] => []
  | p :: rest =>
    match rest with
    | [] => p
    | _ :: _ => p ++ sep :: joinWithChar sep rest

theorem joinWithChar_single (sep : Char) (p : JSString) :
    joinWithChar sep [p] = p := rfl

theorem joinWithChar_cons2 (sep : Char) (p q : JSString) (r : List JSString) :
    joinWithChar sep (p :: q :: r) = p ++ sep :: joinWithChar sep (q :: r) := rfl

theorem joinWithChar_splitOnChar (sep : Char) (l : JSString) :
    joinWithChar sep (splitOnChar sep l) = l := by
  induction l with
  | nil => rfl
  | cons c rest ih =>
    rw [splitOnChar]
    rcases hr : splitOnChar sep rest with _ | ⟨h, t⟩
    · exact absurd hr (splitOnChar_ne_nil sep rest)
    · rw [hr] at ih
      by_cases hc : c = sep
      · subst hc
        rw [if_pos rfl, joinWithChar_cons2, ih]
        simp
      · simp only [if_neg hc]
        rcases t with _ | ⟨t0, ts⟩
        · rw [joinWithChar_single] at ih
          rw [joinWithChar_single, ih]
        · rw [joinWithChar_cons2] at ih
          rw [joinWithChar_cons2, List.cons_append, ih]

/-- C10.  Verifying a password against the hash just produced for it
succeeds (for any digest, encoder and non-empty salt), and verification
fails for any stored value not of the form `salt:hash` with both parts
non-empty. -/
theorem password_hash_roundtrip (digest : List (Fin 256) → List (Fin 256))
    (encode : JSString → List (Fin 256)) (password stored : JSString)
    (salt : List (Fin 256))
    (hdig : ∀ l, digest l ≠ []) (hsalt : salt ≠ [])
    (hform : ¬ ∃ s h, s ≠ ([] : JSString) ∧ h ≠ ([] : JSString) ∧ stored = s ++ ':' :: h) :
    verifyPassword digest encode password (hashPassword digest encode password salt) = true
    ∧ verifyPassword digest encode password stored = false := by
  constructor
  · rw [hashPassword, verifyPassword]
    have hsplit : splitOnChar ':' (bytesToHex salt ++ ':' ::
        bytesToHex (digest (encode (bytesToHex (digest (encode password)) ++ bytesToHex salt))))
        = [bytesToHex salt,
           bytesToHex (digest (encode (bytesToHex (digest (encode password)) ++ bytesToHex salt)))] := by
      rw [splitOnChar_append _ (colon_not_mem_bytesToHex salt),
        splitOnChar_of_not_mem (colon_not_mem_bytesToHex _)]
    simp only [hsplit, List.getD]
    rw [if_neg]
    · simp
    · simp [List.isEmpty_iff, bytesToHex_ne_nil hsalt, bytesToHex_ne_nil (hdig _)]
  · by_contra hc
    have htrue : verifyPassword digest encode password stored = true := by
      revert hc
      cases verifyPassword digest encode password stored <;> simp
    rw [verifyPassword] at htrue
    rcases hp : splitOnChar ':' stored with _ | ⟨p0, tail⟩
    · exact absurd hp (splitOnChar_ne_nil ':' stored)
    rcases tail with _ | ⟨p1, rest⟩
    · rw [hp] at htrue
      simp [List.getD] at htrue
    rw [hp] at htrue
    simp only [List.getD, List.getElem?_cons_zero, List.getElem?_cons_succ,
      Option.getD_some] at htrue
    by_cases h0 : p0.isEmpty
    · rw [if_pos (by simp [h0])] at htrue
      exact absurd htrue (by simp)
    by_cases h1 : p1.isEmpty
    · rw [if_pos (by simp [h1])] at htrue
      exact absurd htrue (by simp)
    refine hform ⟨p0, joinWithChar ':' (p1 :: rest), ?_, ?_, ?_⟩
    · simpa [List.isEmpty_iff] using h0
    · rcases rest with _ | ⟨r0, rs⟩
      · rw [joinWithChar_single]
        simpa [List.isEmpty_iff] using h1
      · rw [joinWithChar_cons2]
        have : p1 ≠ [] := by simpa [List.isEmpty_iff] using h1
        simp [this]
    · have := joinWithChar_splitOnChar ':' stored
      rw [hp, joinWithChar_cons2] at this
      exact this.symm

/-- Closed witness for `password_hash_roundtrip`. -/
theorem password_hash_roundtrip_witness :
    (∀ l, (fun _ : List (Fin 256) => [(0 : Fin 256)]) l ≠ [])
    ∧ ([(1 : Fin 256)] : List (Fin 256)) ≠ []
    ∧ verifyPassword (fun _ => [(0 : Fin 256)]) (fun _ => []) (str "pw")
        (hashPassword (fun _ => [(0 : Fin 256)]) (fun _ => []) (str "pw")
          [(1 : Fin 256)]) = true := by
  have hdig : ∀ l, (fun _ : List (Fin 256) => [(0 : Fin 256)]) l ≠ [] :=
    fun _ => List.cons_ne_nil _ _
  have hform : ¬ ∃ s h, s ≠ ([] : JSString) ∧ h ≠ ([] : JSString)
      ∧ str "nocolon" = s ++ ':' :: h := by
    rintro ⟨s, h, _, _, heq⟩
    have hmem : ':' ∈ str "nocolon" := by
      rw [heq]
      exact List.mem_append.mpr (Or.inr (List.mem_cons_self _ _))
    exact absurd hmem (by decide)
  refine ⟨hdig, by decide, ?_⟩
  exact (password_hash_roundtrip (fun _ => [(0 : Fin 256)]) (fun _ => [])
    (str "pw") (str "nocolon") [(1 : Fin 256)] hdig (by decide) hform).1

/-- `String.replace(/\r\n/g, '\n')`: left-to-right replacement of CRLF
pairs. -/
def replaceCrlf : JSString → JSString
  | '\r' :: '\n' :: rest => '\n' :: replaceCrlf rest
  | c :: rest => c :: replaceCrlf rest
  | [] => []

/-- The newline normalisation of the CSV helpers
(`fileContent.trim().replace(/\r\n/g, '\n').replace(/\r/g, '\n')`). -/
def normalizeCsv (content : JSString) : JSString :=
  (replaceCrlf (trimChars content)).map (fun c => if c = '\r' then '\n' else c)

/-- The lines of the CSV file (`.split('\n')` after normalisation). -/
def csvLines (content : JSString) : List JSString :=
  splitOnChar '\n' (normalizeCsv content)

/-- The trimmed header cells of the first line
(`lines[0].split(',').map(h => h.trim())`). -/
def csvRawHeaders (content : JSString) : List JSString :=
  (splitOnChar ',' ((csvLines content).headD [])).map trimChars

/-- The sanitised data rows (`sanitizeRows(lines.slice(1))`), empty when
the file has fewer than two lines. -/
def csvDataRows (content : JSString) : List (List JSString) :=
  if (csvLines content).length < 2 then []
  else ((csvLines content).drop 1).map fun line => (splitOnChar ',' line).map trimChars

/-- The column mapping handed to `parseCsvWithMapping`; a `none` or
empty entry is a falsy `headerName`. -/
structure ColumnMapping where
  firstName : Option JSString
  lastName : Option JSString
  email : Option JSString
  company : Option JSString
  title : Option JSString
deriving DecidableEq, Repr

/-- `headerIndexMap[name]`: the JS object built by assigning
`headerIndexMap[header] = index` in order, so a duplicated header keeps
its last index. -/
def headerIndexOf (headers : List JSString) (name : JSString) : Option Nat :=
  headers.enum.foldl (fun acc p => if p.2 = name then some p.1 else acc) none

/-- `getValue(headerName)` of the row loop: empty for a falsy or unknown
header, else the trimmed cell under that header's index. -/
def getValue (headers : List JSString) (values : List JSString)
    (headerName : Option JSString) : JSString :=
  match headerName with
  | none => []
  | some hn =>
    if hn.isEmpty then []
    else
      match headerIndexOf headers hn with
      | none => []
      | some idx => trimChars (values.getD idx [])

/-- Whether a mapped column is usable: the mapping entry is truthy and
`headerIndexMap.hasOwnProperty(headerName)`. -/
def columnResolved (headers : List JSString) (hn : Option JSString) : Bool :=
  match hn with
  | none => false
  | some h => !h.isEmpty && (headerIndexOf headers h).isSome

/-- `missingColumns`: the required fields whose mapped column cannot be
identified (the thrown `Error` message lists exactly these names). -/
def missingColumns (headers : List JSString) (m : ColumnMapping) : List JSString :=
  (([(str "firstName", m.firstName), (str "lastName", m.lastName),
     (str "email", m.email), (str "company", m.company),
     (str "title", m.title)].filter
      fun p => !(columnResolved headers p.2)).map Prod.fst)

/-- `combinedNameHeader`: when first- and last-name map to the same
truthy header, that header holds a combined full name. -/
def combinedNameHeader (m : ColumnMapping) : Option JSString :=
  match m.firstName, m.lastName with
  | some f, some l =>
    if ¬ f.isEmpty ∧ ¬ l.isEmpty ∧ f = l then some f else none
  | _, _ => none

theorem dropWhile_ws_length_le (l : JSString) :
    (l.dropWhile Char.isWhitespace).length ≤ l.length := by
  induction l with
  | nil => simp
  | cons c rest ih =>
    rw [List.dropWhile_cons]
    split
    · simp
      omega
    · simp

/-- `value.trim().split(/\s+/)` — split on maximal whitespace runs. -/
def splitWsRuns : JSString → List JSString
  | [] => [[]]
  | c :: rest =>
    if c.isWhitespace then
      [] :: splitWsRuns (rest.dropWhile Char.isWhitespace)
    else
      match splitWsRuns rest with
      | [] => [[c]]
      | h :: t => (c :: h) :: t
termination_by l => l.length
decreasing_by
  · have := dropWhile_ws_length_le rest
    simp only [List.length_cons]
    omega
  · simp

/-- `splitFullName` of the CSV helpers. -/
def splitFullName (value : JSString) : JSString × JSString :=
  match splitWsRuns (trimChars value) with
  | [] => ([], [])
  | p :: rest =>
    match rest with
    | [] => (p, [])
    | _ :: _ => (p, joinWithChar ' ' rest)

/-- A parsed contact (`ParsedContact` of the CSV helpers). -/
structure ParsedContact where
  firstName : JSString
  lastName : JSString
  email : JSString
  company : JSString
  title : JSString
  raw_data : List (JSString × JSString)
deriving DecidableEq, Repr

/-- The result of `parseCsvWithMapping`. -/
structure ParsedContactsResult where
  contacts : List ParsedContact
  invalidRows : Nat
deriving DecidableEq, Repr

/-- The body of the `dataRows.forEach` loop: extract the five required
values (splitting a combined name column when configured), return
`none` — counted as an invalid row — when any of them is empty, else the
contact pushed to the result. -/
def csvProcessRow (headers : List JSString) (m : ColumnMapping)
    (combined : Option JSString) (values : List JSString) : Option ParsedContact :=
  let rawData := headers.enum.map fun p => (p.2, trimChars (values.getD p.1 []))
  let firstName0 := getValue headers values m.firstName
  let lastName0 := getValue headers values m.lastName
  let names :=
    match combined with
    | some _ =>
      let nameParts := splitFullName firstName0
      (nameParts.1, if nameParts.2.isEmpty then lastName0 else nameParts.2)
    | none => (firstName0, lastName0)
  let emailValue := getValue headers values m.email
  let companyValue := getValue headers values m.company
  let titleValue := getValue headers values m.title
  if names.1.isEmpty || names.2.isEmpty || emailValue.isEmpty
      || companyValue.isEmpty || titleValue.isEmpty then
    none
  else
    some { firstName := names.1, lastName := names.2, email := emailValue,
           company := companyValue, title := titleValue, raw_data := rawData }

/-- The accumulator update of the `dataRows.forEach` loop: a valid row
appends its contact, an invalid row bumps the counter. -/
def csvFoldStep {α β : Type} (f : α → Option β) (acc : List β × Nat) (v : α) :
    List β × Nat :=
  match f v with
  | some c => (acc.1 ++ [c], acc.2)
  | none => (acc.1, acc.2 + 1)

/-- `parseCsvWithMapping` (`src/unnamed/part_000`): fewer than two lines
yields the empty result; an unidentifiable required column throws (the
error value carries the missing field names); otherwise each data row
either contributes a contact or bumps `invalidRows`. -/
def parseCsvWithMapping (content : JSString) (m : ColumnMapping) :
    Except (List JSString) ParsedContactsResult :=
  let lines := csvLines content
  if lines.length < 2 then
    Except.ok { contacts := [], invalidRows := 0 }
  else
    let rawHeaders := csvRawHeaders content
    let missing := missingColumns rawHeaders m
    if ¬ missing.isEmpty then
      Except.error missing
    else
      let combined := combinedNameHeader m
      let res := (csvDataRows content).foldl
        (csvFoldStep (csvProcessRow rawHeaders m combined)) ([], 0)
      Except.ok { contacts := res.1, invalidRows := res.2 }

theorem csv_foldl_spec {α β : Type} (f : α → Option β) (rows : List α)
    (cs : List β) (n : Nat) :
    rows.foldl (csvFoldStep f) (cs, n)
    = (cs ++ rows.filterMap f, n + (rows.filter fun v => (f v).isNone).length) := by
  induction rows generalizing cs n with
  | nil => simp
  | cons v rows ih =>
    rcases hf : f v with _ | c
    · rw [List.foldl_cons]
      simp only [csvFoldStep, hf]
      rw [ih]
      simp [List.filterMap_cons, List.filter_cons, hf]
      omega
    · rw [List.foldl_cons]
      simp only [csvFoldStep, hf]
      rw [ih]
      simp [List.filterMap_cons, List.filter_cons, hf]

theorem filterMap_isNone_length {α β : Type} (f : α → Option β) (rows : List α) :
    (rows.filterMap f).length + (rows.filter fun v => (f v).isNone).length
      = rows.length := by
  induction rows with
  | nil => simp
  | cons v rows ih =>
    rcases hf : f v with _ | c <;>
      simp [List.filterMap_cons, List.filter_cons, hf] <;>
      omega

/-- C4.  When `parseCsvWithMapping` succeeds, the contacts are exactly
the data rows whose five required fields are all non-empty (in order), a
row with any required field missing is excluded and counted in
`invalidRows`, and `contacts.length + invalidRows` equals the total
number of data rows. -/
theorem parseCsvWithMapping_spec (content : JSString) (m : ColumnMapping)
    (r : ParsedContactsResult)
    (h : parseCsvWithMapping content m = Except.ok r) :
    r.contacts.length + r.invalidRows = (csvDataRows content).length
    ∧ r.contacts = (csvDataRows content).filterMap
        (csvProcessRow (csvRawHeaders content) m (combinedNameHeader m))
    ∧ r.invalidRows = ((csvDataRows content).filter
        fun v => (csvProcessRow (csvRawHeaders content) m (combinedNameHeader m) v).isNone).length := by
  rw [parseCsvWithMapping] at h
  by_cases hlt : (csvLines content).length < 2
  · rw [if_pos hlt] at h
    cases h
    simp [csvDataRows, hlt]
  · rw [if_neg hlt] at h
    by_cases hmiss : (missingColumns (csvRawHeaders content) m).isEmpty
    · rw [if_neg (by simp [hmiss])] at h
      dsimp only at h
      rw [csv_foldl_spec] at h
      cases h
      refine ⟨?_, by simp, by simp⟩
      simpa using filterMap_isNone_length
        (csvProcessRow (csvRawHeaders content) m (combinedNameHeader m)) (csvDataRows content)
    · rw [if_pos (by simp [hmiss])] at h
      exact absurd h (by simp)


/-- The CSV fixture of the parsing witness: one valid data row and one
row with an empty `lastName` cell. -/
def exCsvContent : JSString :=
  str "a,b,c,d,e\nJo,Do,jo@x.io,Acme,CEO\nAl,,al@x.io,Acme,CTO"

/-- A mapping covering the five required fields for `exCsvContent`. -/
def exCsvMapping : ColumnMapping :=
  { firstName := some (str "a"), lastName := some (str "b"), email := some (str "c"),
    company := some (str "d"), title := some (str "e") }

/-- The parse result of the fixture: one contact, one invalid row. -/
def exCsvResult : ParsedContactsResult :=
  { contacts := [{ firstName := str "Jo", lastName := str "Do",
                   email := str "jo@x.io", company := str "Acme", title := str "CEO",
                   raw_data := [(str "a", str "Jo"), (str "b", str "Do"),
                                (str "c", str "jo@x.io"), (str "d", str "Acme"),
                                (str "e", str "CEO")] }],
    invalidRows := 1 }

/-- Closed witness for `parseCsvWithMapping_spec`: 1 contact + 1 invalid
row = 2 data rows. -/
theorem parseCsvWithMapping_spec_witness :
    parseCsvWithMapping exCsvContent exCsvMapping = Except.ok exCsvResult
    ∧ exCsvResult.contacts.length + exCsvResult.invalidRows
        = (csvDataRows exCsvContent).length := by
  have h : parseCsvWithMapping exCsvContent exCsvMapping = Except.ok exCsvResult := by
    rfl
  exact ⟨h, (parseCsvWithMapping_spec exCsvContent exCsvMapping exCsvResult h).1⟩
